import Mathlib

/-!
Shallow embedding of the transcript reconciler and tool-call plumbing of the
Pixie browser extension (content script class `BoltVoiceAssistant` and the
background service worker).  JS strings are modelled as lists of characters
(`Str`), JS `Set`s of tool-call ids as insertion-ordered lists.
-/

abbrev Str := List Char

/-- JS `String.prototype.startsWith`: `jsStartsWith s p` is true iff `p`
occurs at the beginning of `s`. -/
def jsStartsWith : Str → Str → Bool
  | _, [] => true
  | [], _ :: _ => false
  | c :: s, p :: ps => c == p && jsStartsWith s ps

/-- Whitespace predicate used to model JS `trim` and `trimStart`. -/
def isSpaceChar (c : Char) : Bool := c.isWhitespace

/-- JS `String.prototype.trimStart`. -/
def jsTrimStart (s : Str) : Str := s.dropWhile isSpaceChar

/-- JS `String.prototype.trim`. -/
def jsTrim (s : Str) : Str :=
  ((s.dropWhile isSpaceChar).reverse.dropWhile isSpaceChar).reverse

/-- The character-by-character common-prefix-length loop of
`handleTranscription` (content script lines 1139-1144): count equal
characters from the front, stop at the first mismatch. -/
def commonLen : Str → Str → Nat
  | a :: as, b :: bs => if a == b then commonLen as bs + 1 else 0
  | _, _ => 0

/-- The per-session client-side accumulation state of the transcript
reconciler: `lastSDKText` is the last clean SDK fragment and
`fullTranscript` the client-side full transcript that survives the SDK
buffer overflow. -/
structure RecState where
  lastSDKText : Str
  fullTranscript : Str
deriving DecidableEq

/-- Lines 1130-1159 of the content script (`handleTranscription`), the
client-side accumulation step on the cleaned fragment `cleanText`.
The JS float test `commonLen > this.lastSDKText.length * 0.3` is modelled
as the exact comparison `3 * length < 10 * commonLen`: for every length far
below 2^50 the double-precision product `0.3 * length` differs from the
rational value 3*length/10 by less than its distance to any integer it is
not equal to, so both tests agree on the integer `commonLen`.
JS `substring(0, length - oldTailLen)` clamps a negative bound to 0,
exactly as truncated natural subtraction does. -/
def reconcile (st : RecState) (cleanText : Str) : RecState :=
  if st.lastSDKText.isEmpty then
    { lastSDKText := cleanText, fullTranscript := cleanText }
  else if jsStartsWith cleanText st.lastSDKText then
    { lastSDKText := cleanText,
      fullTranscript := st.fullTranscript ++ cleanText.drop st.lastSDKText.length }
  else
    let n := commonLen st.lastSDKText cleanText
    if 3 * st.lastSDKText.length < 10 * n then
      { lastSDKText := cleanText,
        fullTranscript :=
          st.fullTranscript.take (st.fullTranscript.length - (st.lastSDKText.length - n))
            ++ cleanText.drop n }
    else
      { lastSDKText := cleanText,
        fullTranscript := st.fullTranscript ++ ' ' :: cleanText }

/-- The fields of `BoltVoiceAssistant` read or written by
`handleTranscription`. -/
structure AState where
  isRecording : Bool
  previousSessionText : Str
  lastRawSDKText : Str
  lastSDKText : Str
  fullTranscript : Str
deriving DecidableEq

/-- Content script `handleTranscription` (lines 1105-1166): ignore the
fragment when recording has already stopped or the fragment is
empty/whitespace-only; strip a stored previous-session text from the front
of the raw fragment; run the accumulation step; report the new state and,
when text survived the guards, the full transcript handed to
`sendCommandToBolt`/`showTranscription` (`none` when nothing is sent). -/
def handleTranscription (st : AState) (text : Str) : AState × Option Str :=
  if !st.isRecording then (st, none)
  else if (jsTrim text).isEmpty then (st, none)
  else
    let cleanText :=
      if !st.previousSessionText.isEmpty && jsStartsWith text st.previousSessionText then
        jsTrimStart (text.drop st.previousSessionText.length)
      else text
    if (jsTrim cleanText).isEmpty then (st, none)
    else
      let r := reconcile ⟨st.lastSDKText, st.fullTranscript⟩ cleanText
      ({ st with lastRawSDKText := text, lastSDKText := r.lastSDKText,
                 fullTranscript := r.fullTranscript },
       some r.fullTranscript)

theorem jsStartsWith_append (p s : Str) : jsStartsWith (p ++ s) p = true := by
  induction p with
  | nil => cases s <;> rfl
  | cons c cs ih => simp [jsStartsWith, ih]

theorem jsStartsWith_self (s : Str) : jsStartsWith s s = true := by
  simpa using jsStartsWith_append s []

/-- C1: for every session state with non-empty previous fragment `prev` and
accumulated transcript `T`, processing a non-whitespace fragment
`cur = prev ++ suffix` takes the normal-growth branch and sets the
accumulated transcript to `T ++ suffix` (and stores `cur` as the new
previous fragment). -/
theorem reconcile_growth (prev suffix T : Str) (hprev : prev ≠ [])
    (_hcur : jsTrim (prev ++ suffix) ≠ []) :
    reconcile ⟨prev, T⟩ (prev ++ suffix) = ⟨prev ++ suffix, T ++ suffix⟩ := by
  unfold reconcile
  simp [List.isEmpty_iff, hprev, jsStartsWith_append, List.drop_left]

theorem reconcile_growth_witness :
    reconcile ⟨("hello").toList, ("hello").toList⟩ (("hello").toList ++ (" world").toList)
      = ⟨("hello").toList ++ (" world").toList, ("hello").toList ++ (" world").toList⟩ :=
  reconcile_growth ("hello").toList (" world").toList ("hello").toList
    (by decide) (by decide)

/-- C2: for every non-empty previous fragment `prev` and new fragment `cur`
that does not start with `prev`, when the common prefix length
`L = commonLen prev cur` passes the revision heuristic
(`L > 0.3 * len prev`, modelled exactly as `3 * len prev < 10 * L`),
processing `cur` replaces the last `len prev - L` characters of the
accumulated transcript `T` (which holds at least that many characters) with
`cur`'s suffix beyond position `L`. -/
theorem reconcile_revision (prev cur T : Str) (hprev : prev ≠ [])
    (hns : jsStartsWith cur prev = false)
    (hL : 3 * prev.length < 10 * commonLen prev cur)
    (_hT : prev.length - commonLen prev cur ≤ T.length) :
    reconcile ⟨prev, T⟩ cur
      = ⟨cur, T.take (T.length - (prev.length - commonLen prev cur))
              ++ cur.drop (commonLen prev cur)⟩ := by
  unfold reconcile
  simp [List.isEmpty_iff, hprev, hns, hL]

theorem reconcile_revision_witness :
    reconcile ⟨("turn on the light").toList, ("turn on the light").toList⟩
        (("turn on the lamp").toList)
      = ⟨("turn on the lamp").toList, ("turn on the lamp").toList⟩ := by
  have h := reconcile_revision (("turn on the light").toList)
      (("turn on the lamp").toList) (("turn on the light").toList)
      (by decide) (by decide) (by decide) (by decide)
  rw [h]; decide

/-- C3: for every non-empty previous fragment `prev` and new fragment `cur`
that does not start with `prev`, when the common prefix length fails the
revision heuristic (`L <= 0.3 * len prev`, modelled exactly as
`10 * L <= 3 * len prev`), processing `cur` appends a single space followed
by `cur` verbatim, leaving the prior accumulated transcript `T` intact. -/
theorem reconcile_overflow (prev cur T : Str) (hprev : prev ≠ [])
    (hns : jsStartsWith cur prev = false)
    (hL : 10 * commonLen prev cur ≤ 3 * prev.length) :
    reconcile ⟨prev, T⟩ cur = ⟨cur, T ++ ' ' :: cur⟩ := by
  have hnl : ¬ (3 * prev.length < 10 * commonLen prev cur) := Nat.not_lt.mpr hL
  unfold reconcile
  simp [List.isEmpty_iff, hprev, hns, hnl]

theorem reconcile_overflow_witness :
    reconcile ⟨("hello world this is a test").toList,
               ("hello world this is a test").toList⟩
        (("a test of the system").toList)
      = ⟨("a test of the system").toList,
         ("hello world this is a test a test of the system").toList⟩ := by
  have h := reconcile_overflow (("hello world this is a test").toList)
      (("a test of the system").toList) (("hello world this is a test").toList)
      (by decide) (by decide) (by decide)
  rw [h]; decide

/-- C10: with a non-empty previous fragment, processing a fragment equal to
that previous fragment leaves the reconciler state unchanged (the growth
branch appends the empty suffix), so delivering the same fragment a second
time in a row yields the same transcript as delivering it once. -/
theorem reconcile_idempotent (st : RecState) (h : st.lastSDKText ≠ []) :
    reconcile st st.lastSDKText = st ∧
      reconcile (reconcile st st.lastSDKText) st.lastSDKText
        = reconcile st st.lastSDKText := by
  obtain ⟨prev, T⟩ := st
  show reconcile ⟨prev, T⟩ prev = ⟨prev, T⟩ ∧
      reconcile (reconcile ⟨prev, T⟩ prev) prev = reconcile ⟨prev, T⟩ prev
  have h' : prev ≠ [] := h
  have hfix : reconcile ⟨prev, T⟩ prev = ⟨prev, T⟩ := by
    unfold reconcile
    simp [List.isEmpty_iff, h', jsStartsWith_self, List.drop_length]
  exact ⟨hfix, by simp only [hfix]⟩

theorem reconcile_idempotent_witness :
    reconcile ⟨("hi there").toList, ("hi there").toList⟩ (("hi there").toList)
        = ⟨("hi there").toList, ("hi there").toList⟩ ∧
      reconcile (reconcile ⟨("hi there").toList, ("hi there").toList⟩
          (("hi there").toList)) (("hi there").toList)
        = reconcile ⟨("hi there").toList, ("hi there").toList⟩
            (("hi there").toList) :=
  reconcile_idempotent ⟨("hi there").toList, ("hi there").toList⟩ (by decide)

/-- C7: a fragment that is empty or whitespace-only, or any fragment that
arrives once the session is no longer recording, leaves the whole
`handleTranscription` state unchanged and writes nothing to the page text
field. -/
theorem handleTranscription_noop (st : AState) (text : Str)
    (h : st.isRecording = false ∨ jsTrim text = []) :
    handleTranscription st text = (st, none) := by
  unfold handleTranscription
  rcases h with h | h
  · simp [h]
  · cases hr : st.isRecording <;> simp [h, List.isEmpty_iff]

theorem handleTranscription_noop_witness :
    handleTranscription
        ⟨false, [], [], ("prev text").toList, ("prev text").toList⟩
        (("late fragment").toList)
      = (⟨false, [], [], ("prev text").toList, ("prev text").toList⟩, none) :=
  handleTranscription_noop
    ⟨false, [], [], ("prev text").toList, ("prev text").toList⟩
    (("late fragment").toList) (Or.inl rfl)

/-- One `client_tool_call` (or old-format `tool_call`) event as handled by
`handleAgentMessage` in background.js (lines 734-784): a `tool_call_id`
already in `forwardedToolCalls` is skipped with a warning; otherwise the id
is added to the set and the call is forwarded to the content script for
execution.  The JS `Set` is modelled as an insertion-ordered duplicate-free
list; the returned Bool records whether the call was forwarded. -/
def processToolCallEvent (forwardedToolCalls : List Str) (callId : Str) :
    List Str × Bool :=
  if callId ∈ forwardedToolCalls then (forwardedToolCalls, false)
  else (forwardedToolCalls ++ [callId], true)

/-- Processing a session-ordered sequence of tool-call events starting from
a given `forwardedToolCalls` set: returns the final set together with the
list of call ids that were actually forwarded (each forwarded call is
dispatched by the content script exactly once, producing exactly one
TOOL_RESULT message). -/
def runToolCallEvents (forwardedToolCalls : List Str) :
    List Str → List Str × List Str
  | [] => (forwardedToolCalls, [])
  | callId :: rest =>
    let p := processToolCallEvent forwardedToolCalls callId
    let r := runToolCallEvents p.1 rest
    (r.1, (if p.2 then [callId] else []) ++ r.2)

theorem runToolCallEvents_count (events : List Str) (f : List Str)
    (callId : Str) :
    ((runToolCallEvents f events).2.count callId)
      ≤ if callId ∈ f then 0 else 1 := by
  induction events generalizing f with
  | nil => simp [runToolCallEvents]
  | cons e rest ih =>
    by_cases he : e ∈ f
    · have h := ih f
      simpa [runToolCallEvents, processToolCallEvent, he] using h
    · have h := ih (f ++ [e])
      by_cases hc : callId = e
      · subst hc
        have hin : callId ∈ f ++ [callId] := by simp
        simp only [hin, if_pos, Nat.le_zero] at h
        simp [runToolCallEvents, processToolCallEvent, he, List.count_cons, h]
      · have hmem : (callId ∈ f ++ [e]) ↔ (callId ∈ f) := by simp [hc]
        simp only [hmem] at h
        have hne : (e == callId) = false := by
          simp only [beq_eq_false_iff_ne]
          exact fun hh => hc hh.symm
        simp [runToolCallEvents, processToolCallEvent, he, List.count_cons, hne]
        exact h

/-- C4: within one agent connection, every tool-call id is forwarded to the
content script — and hence dispatched, and answered with a TOOL_RESULT — at
most once, no matter how many tool-call events carry it. -/
theorem toolCall_dedup (events : List Str) (callId : Str) :
    ((runToolCallEvents [] events).2.count callId) ≤ 1 := by
  simpa using runToolCallEvents_count events [] callId

/-- The onclose handler of `initializeAgentWebSocket` (background.js lines
377-380): the `forwardedToolCalls` set is cleared when the agent WebSocket
closes.  No other code path removes entries from the set. -/
def clearForwardedToolCalls (_forwardedToolCalls : List Str) : List Str := []

theorem runToolCallEvents_fresh (ids : List Str) (f : List Str)
    (hdisj : ∀ i ∈ ids, i ∉ f) (hnd : ids.Nodup) :
    (runToolCallEvents f ids).1 = f ++ ids := by
  induction ids generalizing f with
  | nil => simp [runToolCallEvents]
  | cons e rest ih =>
    have he : e ∉ f := hdisj e (List.mem_cons_self e rest)
    obtain ⟨hne, hndr⟩ := List.nodup_cons.mp hnd
    have hd : ∀ i ∈ rest, i ∉ f ++ [e] := by
      intro i hi
      simp only [List.mem_append, List.mem_singleton]
      rintro (hif | rfl)
      · exact hdisj i (List.mem_cons_of_mem _ hi) hif
      · exact hne hi
    have hr := ih (f ++ [e]) hd hndr
    simp [runToolCallEvents, processToolCallEvent, he, hr]

/-- C8 (amended): the `forwardedToolCalls` set is not bounded and nothing
is ever evicted from it.  For every sequence of pairwise-distinct tool-call
ids the set ends up containing exactly all of them in arrival order, so its
size equals the number of distinct ids seen; the set is emptied only by the
WebSocket onclose handler. -/
theorem forwardedToolCalls_unbounded (ids : List Str) (hnd : ids.Nodup) :
    (runToolCallEvents [] ids).1 = ids ∧
      (runToolCallEvents [] ids).1.length = ids.length ∧
      clearForwardedToolCalls (runToolCallEvents [] ids).1 = [] := by
  have h := runToolCallEvents_fresh ids [] (by simp) hnd
  simp only [List.nil_append] at h
  exact ⟨h, by rw [h], rfl⟩

theorem forwardedToolCalls_unbounded_witness :
    (runToolCallEvents [] [("a").toList, ("b").toList, ("c").toList]).1
        = [("a").toList, ("b").toList, ("c").toList] ∧
      (runToolCallEvents []
          [("a").toList, ("b").toList, ("c").toList]).1.length
        = ([("a").toList, ("b").toList, ("c").toList] : List Str).length ∧
      clearForwardedToolCalls
          (runToolCallEvents [] [("a").toList, ("b").toList, ("c").toList]).1
        = [] :=
  forwardedToolCalls_unbounded [("a").toList, ("b").toList, ("c").toList]
    (by decide)

/-- The first 101 single-character tool-call ids, pairwise distinct; the
only eviction cap anywhere in the repository is 100 entries (on the
`processedAudioEvents` audio hashes), so 101 events would have to evict at
least one entry if the claimed cap governed `forwardedToolCalls`. -/
def distinctIds : List Str := (List.range 101).map (fun n => [Char.ofNat (48 + n)])

set_option maxRecDepth 20000 in
/-- C8 counterexample: after 101 tool-call events with pairwise-distinct
ids the `forwardedToolCalls` set holds all 101 entries and still contains
the very first (oldest) id — no size cap is enforced and no entry is ever
evicted. -/
theorem forwardedToolCalls_no_eviction_cex :
    (runToolCallEvents [] distinctIds).1.length = 101 ∧
      [Char.ofNat 48] ∈ (runToolCallEvents [] distinctIds).1 := by
  decide

/-- The fixed client-tool registry set up in the `BoltVoiceAssistant`
constructor (content script lines 30-46): the keys of `this.clientTools`,
in declaration order. -/
def clientToolNames : List Str :=
  [("improve_prompt").toList, ("create_prompt").toList,
   ("update_prompt").toList, ("analyze_ui").toList,
   ("suggest_next_steps").toList]

/-- The TOOL_RESULT message sent back to the background script at the end
of `handleToolCall` (content script lines 1500-1505). -/
structure ToolResultMsg where
  toolCallId : Str
  result : Str
  success : Bool
deriving DecidableEq

/-- Content script `handleToolCall` (lines 1470-1507).  The awaited handler
body is abstracted as `exec` (applied to the tool name and its parameters),
returning `.error` when the handler throws, which the catch block turns
into a failure result.  The second component reports which handler, if any,
was executed. -/
def handleToolCall (exec : Str → Str → Except Str Str)
    (toolName toolCallId parameters : Str) : ToolResultMsg × Option Str :=
  if toolName ∈ clientToolNames then
    match exec toolName parameters with
    | .ok r =>
      ({ toolCallId := toolCallId, result := r, success := true }, some toolName)
    | .error e =>
      ({ toolCallId := toolCallId,
         result := ("Error executing ").toList ++ toolName
           ++ (": ").toList ++ e,
         success := false }, some toolName)
  else
    ({ toolCallId := toolCallId,
       result := ("Unknown tool: ").toList ++ toolName
         ++ (". Available tools: ").toList
         ++ List.intercalate ((", ").toList) clientToolNames,
       success := false }, none)

/-- C5: invoking a tool whose name is not registered produces a result with
`success = false` whose message enumerates the registered tool names, and
no handler is executed. -/
theorem handleToolCall_unknown (exec : Str → Str → Except Str Str)
    (toolName toolCallId parameters : Str)
    (h : toolName ∉ clientToolNames) :
    handleToolCall exec toolName toolCallId parameters
      = ({ toolCallId := toolCallId,
           result := ("Unknown tool: ").toList ++ toolName
             ++ (". Available tools: improve_prompt, create_prompt, update_prompt, analyze_ui, suggest_next_steps").toList,
           success := false }, none) := by
  unfold handleToolCall
  rw [if_neg h]
  have hmsg : (". Available tools: ").toList
        ++ List.intercalate ((", ").toList) clientToolNames
      = (". Available tools: improve_prompt, create_prompt, update_prompt, analyze_ui, suggest_next_steps").toList := by
    decide
  simp only [List.append_assoc]
  rw [hmsg]

theorem handleToolCall_unknown_witness :
    handleToolCall (fun _ _ => Except.ok []) (("does_not_exist").toList)
        (("call-1").toList) []
      = ({ toolCallId := ("call-1").toList,
           result := ("Unknown tool: ").toList ++ ("does_not_exist").toList
             ++ (". Available tools: improve_prompt, create_prompt, update_prompt, analyze_ui, suggest_next_steps").toList,
           success := false }, none) :=
  handleToolCall_unknown (fun _ _ => Except.ok []) (("does_not_exist").toList)
    (("call-1").toList) [] (by decide)

/-- The apostrophe character, built by code point to keep source messages
verbatim. -/
def apos : Char := Char.ofNat 39

/-- The double-quote character, built by code point. -/
def dquote : Char := Char.ofNat 34

/-- Outcome of the (abstracted) Gemini `fetch` in `executeImprovePrompt`:
the HTTP error branch (`!response.ok`, with the error message extracted
from the body), the missing `candidates[0].content` shape, the successful
`candidates[0].content.parts[0].text`, or a thrown exception caught by the
surrounding try/catch. -/
inductive GeminiOutcome where
  | httpError (msg : Str)
  | malformed
  | ok (text : Str)
  | threw (msg : Str)
deriving DecidableEq

/-- What one run of `executeImprovePrompt` produces: the natural-language
string returned to the voice agent, whether the Gemini API request was
issued at all, and what (if anything) was written into the page text
field. -/
structure ImproveResult where
  message : Str
  geminiCalled : Bool
  written : Option Str
deriving DecidableEq

/-- The message returned when the textarea is empty (content script line
1527). -/
def emptyFieldMessage : Str :=
  ("I don").toList ++ apos
    :: ("t see any text in the textarea. Could you type a prompt first, then ask me to improve it?").toList

/-- The message returned when no Gemini API key is configured (content
script line 1536). -/
def noKeyMessage : Str :=
  ("Oops! The Gemini API key isn").toList ++ apos
    :: ("t configured yet. Please set it in the extension settings.").toList

/-- The success message spoken by the agent (content script line 1614). -/
def doneMessage : Str :=
  ("Done! I").toList ++ apos
    :: ("ve improved your prompt and updated the textarea. You").toList
    ++ apos :: ("re ready to go!").toList

/-- The surrounding-quote removal applied to the Gemini answer (content
script lines 1596-1599): strip one pair of matching double or single quotes
around the whole string. -/
def stripSurroundingQuotes (s : Str) : Str :=
  if (s.head? == some dquote && s.getLast? == some dquote)
      || (s.head? == some apos && s.getLast? == some apos) then
    (s.drop 1).dropLast
  else s

/-- Content script `sendCommandToBolt` (lines 1377-1405): `inputValue` is
the current value of the located bolt textarea, `none` when no textarea was
found (then nothing is written).  Returns the final text inserted into the
field.  The function consults no recording flag. -/
def sendCommandToBolt (inputValue : Option Str) (command : Str)
    (append : Bool) : Option Str :=
  match inputValue with
  | none => none
  | some v =>
    if append && !v.isEmpty then some (v ++ ' ' :: command) else some command

/-- Content script `executeImprovePrompt` (lines 1512-1621).  `textarea` is
the current value of the bolt textarea (`none` when `getBoltTextarea`
finds none), `geminiApiKey` the stored key (`[]` when unset) and `gemini`
the outcome of the abstracted Gemini HTTP call.  The function reads the
field, guards on an empty prompt and a missing key before issuing the
request, and on success writes the processed answer back through
`sendCommandToBolt`; no branch consults the `isRecording` flag. -/
def executeImprovePrompt (textarea : Option Str) (geminiApiKey : Str)
    (gemini : GeminiOutcome) : ImproveResult :=
  let actualPrompt := match textarea with | some v => jsTrim v | none => []
  if actualPrompt.isEmpty then
    { message := emptyFieldMessage, geminiCalled := false, written := none }
  else if geminiApiKey.isEmpty then
    { message := noKeyMessage, geminiCalled := false, written := none }
  else
    match gemini with
    | .httpError m =>
      { message := ("Sorry, I got an error from Gemini: ").toList ++ m,
        geminiCalled := true, written := none }
    | .malformed =>
      { message :=
          ("Sorry, I got an unexpected response from Gemini. Please try again.").toList,
        geminiCalled := true, written := none }
    | .threw m =>
      { message :=
          ("Sorry, something went wrong while improving your prompt: ").toList ++ m,
        geminiCalled := true, written := none }
    | .ok t =>
      let improvedPrompt := stripSurroundingQuotes (jsTrim t)
      { message := doneMessage, geminiCalled := true,
        written := sendCommandToBolt textarea improvedPrompt false }

/-- C6: when the target text field is absent or holds only whitespace,
`executeImprovePrompt` returns the natural-language message asking the user
to type a prompt first, issues no Gemini request and writes nothing to the
page. -/
theorem executeImprovePrompt_emptyField (textarea : Option Str)
    (geminiApiKey : Str) (gemini : GeminiOutcome)
    (h : textarea = none ∨ ∃ v, textarea = some v ∧ jsTrim v = []) :
    executeImprovePrompt textarea geminiApiKey gemini
      = { message := emptyFieldMessage, geminiCalled := false,
          written := none } := by
  unfold executeImprovePrompt
  rcases h with h | ⟨v, hv, htrim⟩
  · subst h; simp
  · subst hv; simp [htrim]

theorem executeImprovePrompt_emptyField_witness :
    executeImprovePrompt (some (("   ").toList)) (("gemini-key").toList)
        (GeminiOutcome.ok (("anything").toList))
      = { message := emptyFieldMessage, geminiCalled := false,
          written := none } :=
  executeImprovePrompt_emptyField (some (("   ").toList))
    (("gemini-key").toList) (GeminiOutcome.ok (("anything").toList))
    (Or.inr ⟨("   ").toList, rfl, by decide⟩)

/-- The improve_prompt result write-back with the recording flag threaded
explicitly: between the Gemini call completing and `sendCommandToBolt`
writing the page field, the source consults no recording flag, so the run
is literally independent of it (the flag is only read by
`handleTranscription` for transcript fragments). -/
def improvePromptRun (_isRecording : Bool) (textarea : Option Str)
    (geminiApiKey : Str) (gemini : GeminiOutcome) : ImproveResult :=
  executeImprovePrompt textarea geminiApiKey gemini

/-- C9 counterexample: a Gemini call that completes with the recording flag
already false (the session stopped) still writes its result into the page
text field — the result is not discarded, contradicting the claim. -/
theorem improvePrompt_not_discarded_cex :
    (improvePromptRun false (some (("make an app").toList))
        (("gemini-key").toList)
        (GeminiOutcome.ok (("Build a todo app").toList))).written
      = some (("Build a todo app").toList) := by
  decide

/-- C9 (amended): the discard-after-close behaviour exists only for
transcription fragments; the improve_prompt write-back path never consults
the recording flag, so its outcome — including the write to the page text
field — is identical whatever the flag's value at completion time. -/
theorem improvePromptRun_flag_independent (b : Bool) (textarea : Option Str)
    (geminiApiKey : Str) (gemini : GeminiOutcome) :
    improvePromptRun b textarea geminiApiKey gemini
      = improvePromptRun true textarea geminiApiKey gemini := rfl
